import Mathlib

/-!
Verification development for the webvs composition engine fragment.

The file embeds, as Lean definitions, the code of
  * the Mirror transition component (src/unnamed/part_000), and
  * the Main controller class (src/unnamed/part_001 and part_002),
and proves properties of the embedded definitions.

Modelling conventions: JavaScript numbers holding quadrant indices are
modelled as naturals, mix weights as rationals (the source arithmetic on
them is linear, and the only equalities claimed exact are produced by
direct stores), `transitionDuration` as a natural number of ticks, and
the nondeterministic inputs (the beat flag and the 4-bit random value
drawn by `Math.random`, the resource-gate signals, the host animation
frame callbacks) as event parameters of explicit state machines.
-/

namespace Webvs

/- ## Mirror component (src/unnamed/part_000)

   `MirrorDirs` and `MirrorOpts` mirror the two interfaces of the source
   file; the four direction flags, `onBeatRandom`, `smoothTransition`
   and `transitionDuration` are the component options. -/

structure MirrorDirs where
  topToBottom : Bool
  bottomToTop : Bool
  leftToRight : Bool
  rightToLeft : Bool
  deriving DecidableEq

structure MirrorOpts where
  onBeatRandom : Bool
  topToBottom : Bool
  bottomToTop : Bool
  leftToRight : Bool
  rightToLeft : Bool
  smoothTransition : Bool
  transitionDuration : Nat
  deriving DecidableEq

def MirrorOpts.dirs (o : MirrorOpts) : MirrorDirs :=
  ⟨o.topToBottom, o.bottomToTop, o.leftToRight, o.rightToLeft⟩

def MirrorOpts.withDirs (o : MirrorOpts) (d : MirrorDirs) : MirrorOpts :=
  { o with topToBottom := d.topToBottom, bottomToTop := d.bottomToTop,
           leftToRight := d.leftToRight, rightToLeft := d.rightToLeft }

/-- The `defaultOptions` of the Mirror component. -/
def mirrorDefaultOptions : MirrorOpts :=
  { onBeatRandom := false, topToBottom := true, bottomToTop := false,
    leftToRight := false, rightToLeft := false, smoothTransition := false,
    transitionDuration := 4 }

/-- The gating of the four directions by one bit each of a freshly drawn
    4-bit random value, from the `random` branch of `_setQuadrantMap`:
    `(randVal & 1) && opts.topToBottom` etc. -/
def gatedDirs (o : MirrorOpts) (randVal : Fin 16) : MirrorDirs :=
  ⟨randVal.val.testBit 0 && o.topToBottom,
   randVal.val.testBit 1 && o.bottomToTop,
   randVal.val.testBit 2 && o.leftToRight,
   randVal.val.testBit 3 && o.rightToLeft⟩

/-- The quadrant map computation of `_setQuadrantMap`: start from the
    identity map `[0,1,2,3]` and apply, in the fixed source order
    topToBottom, bottomToTop, leftToRight, rightToLeft, the pairwise
    overwrites `map[2]=map[0]; map[3]=map[1]`, `map[0]=map[2]; map[1]=map[3]`,
    `map[1]=map[0]; map[3]=map[2]`, `map[0]=map[1]; map[2]=map[3]`. -/
def quadrantMapOfDirs (d : MirrorDirs) : Fin 4 → Nat :=
  let m0 : Fin 4 → Nat := ![0, 1, 2, 3]
  let m1 := if d.topToBottom then ![m0 0, m0 1, m0 0, m0 1] else m0
  let m2 := if d.bottomToTop then ![m1 2, m1 3, m1 2, m1 3] else m1
  let m3 := if d.leftToRight then ![m2 0, m2 0, m2 2, m2 2] else m2
  if d.rightToLeft then ![m3 1, m3 1, m3 3, m3 3] else m3

/- Reformulation used to state C4: one constructor per direction, the
   per-direction overwrite, and the fixed application order as a list. -/

inductive MirrorDir where
  | ttb
  | btt
  | ltr
  | rtl
  deriving DecidableEq

def applyMirrorDir : MirrorDir → (Fin 4 → Nat) → (Fin 4 → Nat)
  | .ttb, m => ![m 0, m 1, m 0, m 1]
  | .btt, m => ![m 2, m 3, m 2, m 3]
  | .ltr, m => ![m 0, m 0, m 2, m 2]
  | .rtl, m => ![m 1, m 1, m 3, m 3]

def enabledDirs (d : MirrorDirs) : List MirrorDir :=
  (if d.topToBottom then [MirrorDir.ttb] else []) ++
  (if d.bottomToTop then [MirrorDir.btt] else []) ++
  (if d.leftToRight then [MirrorDir.ltr] else []) ++
  (if d.rightToLeft then [MirrorDir.rtl] else [])

/- ### Mirror per-instance state

   `map` holds the quadrant map, `mix` the four 4-weight vectors and
   `mixDelta` the per-tick weight deltas, exactly the fields of the
   source class. -/

structure MirrorState where
  opts : MirrorOpts
  animFrameCount : Nat
  map : Fin 4 → Nat
  mix : Fin 4 → Fin 4 → ℚ
  mixDelta : Fin 4 → Fin 4 → ℚ

namespace Mirror

/-- `_inTransition`. -/
def inTransition (s : MirrorState) : Bool :=
  s.opts.smoothTransition && (s.animFrameCount != 0)

/-- The quadrant number read back from the first slot of a mix row
    (`const quad = this.mix[i][0]`, then used as an index). -/
def quadIdx (q : ℚ) : Fin 4 :=
  if q = 1 then 1 else if q = 2 then 2 else if q = 3 then 3 else 0

/-- The index-to-one-hot conversion applied to one mix row
    (`this.mix[i][0] = 0; this.mix[i][quad] = 1;`). -/
def onehotRow (row : Fin 4 → ℚ) : Fin 4 → ℚ :=
  Function.update (Function.update row 0 0) (quadIdx (row 0)) 1

/-- `_setMix`. -/
def setMix (noTransition : Bool) (s : MirrorState) : MirrorState :=
  if s.opts.smoothTransition && !noTransition then
    let mix1 := if s.animFrameCount = 0 then fun i => onehotRow (s.mix i) else s.mix
    { s with
      mix := mix1,
      mixDelta := fun i j =>
        ((if (j : ℕ) = s.map i then (1 : ℚ) else 0) - mix1 i j) /
          (s.opts.transitionDuration : ℚ),
      animFrameCount := s.opts.transitionDuration }
  else
    { s with mix := fun i j => if j = 0 then (s.map i : ℚ) else 0 }

/-- `_setQuadrantMap`; the 4-bit random value drawn by `Math.random` in
    the `random = true` branch is passed in as the event input. -/
def setQuadrantMap (rand : Option (Fin 16)) (s : MirrorState) : MirrorState :=
  let dirs := match rand with
    | none => s.opts.dirs
    | some r => gatedDirs s.opts r
  setMix false { s with map := quadrantMapOfDirs dirs }

/-- `updateMap`, the update handler of the four direction options. -/
def updateMap (s : MirrorState) : MirrorState :=
  setQuadrantMap none s

/-- `draw`; `beat` is the analyser beat flag for this tick and `rand`
    the random value used if the beat triggers the random remap. -/
def draw (beat : Bool) (rand : Fin 16) (s : MirrorState) : MirrorState :=
  let s1 := if s.opts.onBeatRandom && beat then setQuadrantMap (some rand) s else s
  if inTransition s1 then
    let c := s1.animFrameCount - 1
    if c = 0 then setMix true { s1 with animFrameCount := 0 }
    else { s1 with animFrameCount := c,
                   mix := fun i j => s1.mix i j + s1.mixDelta i j }
  else s1

/-- The field state set up by `init()` just before its `updateMap()` call:
    `animFrameCount = 0`, `mix = [[0,0,0,0],[1,0,0,0],[2,0,0,0],[3,0,0,0]]`,
    `mixDelta` all zero.  The `map` field is first written by `updateMap`;
    it is given the identity here so the record is total. -/
def initBase (o : MirrorOpts) : MirrorState :=
  { opts := o, animFrameCount := 0, map := fun i => (i : ℕ),
    mix := fun i j => if j = 0 then ((i : ℕ) : ℚ) else 0,
    mixDelta := fun _ _ => 0 }

/-- `init()`. -/
def initState (o : MirrorOpts) : MirrorState :=
  updateMap (initBase o)

/-- External stimuli of one Mirror instance: a change of the four
    direction options (which fires the `updateMap` option handler), and
    one `draw` tick with its beat flag and random draw. -/
inductive Event where
  | updateDirs (d : MirrorDirs)
  | drawFrame (beat : Bool) (rand : Fin 16)

def step : Event → MirrorState → MirrorState
  | .updateDirs d, s => updateMap { s with opts := s.opts.withDirs d }
  | .drawFrame b r, s => draw b r s

/-- States reachable from `init()` under any stimulus sequence. -/
inductive Reachable (o : MirrorOpts) : MirrorState → Prop
  | init : Reachable o (initState o)
  | step (e : Event) {s : MirrorState} : Reachable o s → Reachable o (Mirror.step e s)

end Mirror

/- ## Main controller (src/unnamed/part_001; part_002 is the second
      variant of the same class)

   The component tree, its construction from a preset configuration and
   its serialization live in `EffectList`/`Component`, which are not part
   of the given sources; they are modelled from the spec below.  The
   `Main`-level plumbing (`loadPreset`, `resetCanvas`, `toJSON`,
   `start`/`stop`, the resource-gate and context-loss handlers, the
   buffer cache) is embedded from the source. -/

mutual
inductive NodeCfg where
  | mk (ctype : String) (opts : List (String × String)) (children : NodeForest)
inductive NodeForest where
  | nil
  | cons (c : NodeCfg) (rest : NodeForest)
end

deriving instance DecidableEq for NodeCfg, NodeForest

mutual
inductive NodeInst where
  | mk (ctype : String) (opts : List (String × String)) (children : InstForest)
inductive InstForest where
  | nil
  | cons (n : NodeInst) (rest : InstForest)
end

deriving instance DecidableEq for NodeInst, InstForest

/- Modelled from the spec: `ComponentTree` construction (section 4.1),
   which is not among the given source files.  Given a configuration,
   one Node is instantiated per config entry after looking up its
   `type` in the type registry; an unknown type is a ConfigError
   (`none` here); each Node keeps its type tag, option map and
   children, which its `toJSON` reproduces. -/
mutual
/-- Modelled from the spec: instantiation of one Node (see above). -/
def buildNode (reg : List String) : NodeCfg → Option NodeInst
  | .mk t o cs =>
    if t ∈ reg then
      match buildForest reg cs with
      | some ks => some (.mk t o ks)
      | none => none
    else none
def buildForest (reg : List String) : NodeForest → Option InstForest
  | .nil => some .nil
  | .cons c cs =>
    match buildNode reg c, buildForest reg cs with
    | some n, some ns => some (.cons n ns)
    | _, _ => none
end

/- Modelled from the spec: `toConfig()` of a Node (section 4.1), the
   serialization that reproduces the `type`/`options`/`children`
   config subtree of an instantiated Node. -/
mutual
/-- Modelled from the spec: `toConfig()` of one Node (see above). -/
def toCfgNode : NodeInst → NodeCfg
  | .mk t o ks => .mk t o (toCfgForest ks)
def toCfgForest : InstForest → NodeForest
  | .nil => .nil
  | .cons n ns => .cons (toCfgNode n) (toCfgForest ns)
end

/-- The component classes passed to `ComponentRegistry` in
    `_initComponentRegistry`, by their component names. -/
def componentRegistryNames : List String :=
  ["EffectList",
   "ClearScreen", "MovingParticle", "Picture", "SuperScope", "Texer",
   "ChannelShift", "ColorClip", "ColorMap", "Convolution",
   "DynamicMovement", "FadeOut", "Invert", "Mirror", "Mosaic",
   "UniqueTone",
   "BufferSave", "GlobalVar"]

/- ### Resource-manager uri registry

   `ResourceManager` is not among the given source files; its uri
   registry is modelled from the spec as a key-to-url map:
   `registerUri` adds entries, `clear(keys)` removes the given keys,
   `toJSON()` returns the registered uris. -/

/-- Modelled from the spec: `ResourceManager.clear(keys)` removes the
    entries with the given keys. -/
def removeKeys (ks : List String) (m : List (String × String)) :
    List (String × String) :=
  m.filter fun kv => decide (kv.1 ∉ ks)

/-- Modelled from the spec: registering one uri under a key replaces an
    existing entry for that key, otherwise appends. -/
def insertUri (m : List (String × String)) (kv : String × String) :
    List (String × String) :=
  if kv.1 ∈ m.map Prod.fst then
    m.map fun x => if x.1 = kv.1 then kv else x
  else m ++ [kv]

/-- Modelled from the spec: `ResourceManager.registerUri` over a map of
    uris (registered in key order). -/
def registerUris (l : List (String × String)) (m : List (String × String)) :
    List (String × String) :=
  l.foldl insertUri m

/- ### Main state -/

/-- The root `EffectList` built by `_setupRoot`; its `toJSON` carries the
    `clearFrame` flag and the children, which is exactly what
    `Main.toJSON` picks from it. -/
structure RootInst where
  clearFrame : Bool
  kids : InstForest
  deriving DecidableEq

/-- A preset configuration as consumed by `Main.loadPreset`: root
    `clearFrame` flag, the component config tree, the optional
    `resources.uris` map and the optional free-form `meta` map. -/
structure PresetInput where
  clearFrame : Bool
  components : NodeForest
  resources : Option (List (String × String))
  meta : Option (List (String × String))
  deriving DecidableEq

/-- The value produced by `Main.toJSON`: the picked `clearFrame` and
    `components` of the root's JSON, plus `resources` (the registered
    uris) and the cloned `meta`. -/
structure PresetOut where
  clearFrame : Bool
  components : NodeForest
  uris : List (String × String)
  meta : Option (List (String × String))
  deriving DecidableEq

/-- State of one `Main` instance.  `animPending` models holding a live
    `requestAnimationFrame` request id (`animReqId`); `frameCount`
    counts executed `drawFrame` ticks; `buffers` is `none` while the
    `buffers` field is still `undefined` (the constructor of both Main
    variants never initializes it); `registerBank` maps register names
    to numeric values. -/
structure MainState where
  isStarted : Bool
  rsrcReady : Bool
  animPending : Bool
  frameCount : Nat
  root : RootInst
  presetResourceKeys : List String
  rsrcUris : List (String × String)
  meta : Option (List (String × String))
  registerBank : List (String × Int)
  buffers : Option (List (String × Nat))
  deriving DecidableEq

namespace Main

/-- `start()`. -/
def start (s : MainState) : MainState :=
  if s.isStarted then s
  else
    let s1 := { s with isStarted := true }
    if s1.rsrcReady then { s1 with animPending := true } else s1

/-- `stop()`. -/
def stop (s : MainState) : MainState :=
  if !s.isStarted then s
  else
    let s1 := { s with isStarted := false }
    if s1.rsrcReady then { s1 with animPending := false } else s1

/-- `loadPreset(preset)`: destroy the old root, clear the previous
    preset's resource keys, register the new `resources.uris` (if the
    preset carries them), remember their keys, clone `meta`, and
    `_setupRoot` the new tree (which resets the register bank and
    instantiates the root `EffectList`).  A ConfigError while building
    the tree is `none`. -/
def loadPreset (p : PresetInput) (s : MainState) : Option MainState :=
  match buildForest componentRegistryNames p.components with
  | none => none
  | some ks => some
    { s with
      rsrcUris := registerUris (p.resources.getD [])
                    (removeKeys s.presetResourceKeys s.rsrcUris),
      presetResourceKeys := (p.resources.getD []).map Prod.fst,
      meta := p.meta,
      registerBank := [],
      root := { clearFrame := p.clearFrame, kids := ks } }

/-- `resetCanvas()`: serialize the current root (`rootComponent.toJSON()`),
    destroy it, re-init GL, and `_setupRoot` from that serialization;
    `_setupRoot` resets the register bank before constructing the tree. -/
def resetCanvas (s : MainState) : MainState :=
  let s1 := { s with registerBank := ([] : List (String × Int)) }
  match buildForest componentRegistryNames (toCfgForest s.root.kids) with
  | some ks => { s1 with root := { clearFrame := s.root.clearFrame, kids := ks } }
  | none => s1

/-- `toJSON()`: `_.pick(rootComponent.toJSON(), "clearFrame", "components")`
    plus `resources = rsrcMan.toJSON()` and the cloned `meta`. -/
def toJSON (s : MainState) : PresetOut :=
  { clearFrame := s.root.clearFrame,
    components := toCfgForest s.root.kids,
    uris := s.rsrcUris,
    meta := s.meta }

/-- `getBuffer(name)`: JavaScript evaluation of `this.buffers[name]`,
    which throws a TypeError while `this.buffers` is `undefined`. -/
def getBuffer (name : String) (s : MainState) : Except String (Option Nat) :=
  match s.buffers with
  | none => .error ("TypeError: this.buffers is undefined")
  | some m => .ok ((m.find? fun kv => kv.1 == name).map Prod.snd)

/-- `cacheBuffer(name, buffer)`: JavaScript evaluation of
    `this.buffers[name] = buffer`, which throws a TypeError while
    `this.buffers` is `undefined`. -/
def cacheBuffer (name : String) (b : Nat) (s : MainState) :
    Except String MainState :=
  match s.buffers with
  | none => .error ("TypeError: this.buffers is undefined")
  | some m =>
    .ok { s with buffers := some ((name, b) :: m.filter fun kv => kv.1 != name) }

/-- External stimuli of one `Main` instance: the public start/stop
    calls, the two WebGL context events (whose handlers call `stop()`
    and `resetCanvas()`), the resource manager's `wait`/`ready` signals
    (the manager flips its `ready` flag before emitting, and the
    `handleRsrcWait`/`handleRsrcReady` listeners run), one animation
    frame callback from the host, and a `loadPreset` call. -/
inductive Event where
  | start
  | stop
  | contextLost
  | contextRestored
  | rsrcWait
  | rsrcReady
  | tick
  | load (p : PresetInput)

def step : Event → MainState → MainState
  | .start, s => start s
  | .stop, s => stop s
  | .contextLost, s => stop s
  | .contextRestored, s => resetCanvas s
  | .rsrcWait, s =>
    let s1 := { s with rsrcReady := false }
    if s1.isStarted then { s1 with animPending := false } else s1
  | .rsrcReady, s =>
    let s1 := { s with rsrcReady := true }
    if s1.isStarted then { s1 with animPending := true } else s1
  | .tick, s =>
    if s.animPending then { s with frameCount := s.frameCount + 1 } else s
  | .load p, s => (loadPreset p s).getD s

def runEvents (es : List Event) (s : MainState) : MainState :=
  es.foldl (fun t e => step e t) s

/-- The state right after the constructor: not started, resource
    manager fresh (ready), no pending frame request, root built by
    `_setupRoot({id: "root"})` (no components), `meta = {}`, empty
    register bank, and — in both source variants — a `buffers` field
    that is declared but never assigned, hence still `undefined`. -/
def initMain : MainState :=
  { isStarted := false, rsrcReady := true, animPending := false,
    frameCount := 0,
    root := { clearFrame := false, kids := InstForest.nil },
    presetResourceKeys := [], rsrcUris := [], meta := some [],
    registerBank := [], buffers := none }

/-- States reachable from a freshly constructed `Main` under any
    stimulus sequence. -/
inductive Reachable : MainState → Prop
  | init : Reachable initMain
  | step (e : Event) {s : MainState} : Reachable s → Reachable (Main.step e s)

/-- The runtime invariant of `Main`: a pending animation frame request
    exists only while started with resources ready, and the root's
    serialization rebuilds the root (its types are all registered). -/
def Inv (s : MainState) : Prop :=
  (s.animPending = true → s.isStarted = true ∧ s.rsrcReady = true) ∧
  buildForest componentRegistryNames (toCfgForest s.root.kids) = some s.root.kids

end Main

/- ### The two Main variants (C8)

   Every method body of the part_002 variant is textually identical to
   the part_001 variant except the constructor's animation-callback
   selection, so both variants share the state machine above and differ
   only in the constructed callback pair.  Callbacks are modelled by
   numeric identities; `windowRAF`/`windowCAF` stand for
   `window.requestAnimationFrame.bind(window)` /
   `window.cancelAnimationFrame.bind(window)`. -/

def windowRAF : Nat := 100

def windowCAF : Nat := 101

/-- Callback selection of the part_001 constructor:
    `if (options.requestAnimationFrame && options.cancelAnimationFrame)`
    use both custom callbacks, else use both window callbacks. -/
def selectCallbacksV1 (rafOpt cafOpt : Option Nat) : Nat × Nat :=
  match rafOpt, cafOpt with
  | some r, some c => (r, c)
  | _, _ => (windowRAF, windowCAF)

/-- Callback selection of the part_002 constructor: each callback
    defaults independently (`options.requestAnimationFrame || window...`). -/
def selectCallbacksV2 (rafOpt cafOpt : Option Nat) : Nat × Nat :=
  (rafOpt.getD windowRAF, cafOpt.getD windowCAF)

structure ConstructedMain where
  rafCallback : Nat
  cafCallback : Nat
  state : MainState
  deriving DecidableEq

def constructMainV1 (rafOpt cafOpt : Option Nat) : ConstructedMain :=
  ⟨(selectCallbacksV1 rafOpt cafOpt).1, (selectCallbacksV1 rafOpt cafOpt).2,
   Main.initMain⟩

def constructMainV2 (rafOpt cafOpt : Option Nat) : ConstructedMain :=
  ⟨(selectCallbacksV2 rafOpt cafOpt).1, (selectCallbacksV2 rafOpt cafOpt).2,
   Main.initMain⟩

/- ### Statement helpers and invariants -/

/-- A mix array in index format ("first format"): slot 0 of each row
    holds the source quadrant number, the other slots are 0. -/
def indexMix (map : Fin 4 → ℕ) : Fin 4 → Fin 4 → ℚ :=
  fun i j => if j = 0 then (map i : ℚ) else 0

/-- A mix array in exact one-hot ("second") format: row `i` carries
    weight 1 on quadrant `map i` and 0 elsewhere. -/
def onehotMix (map : Fin 4 → ℕ) : Fin 4 → Fin 4 → ℚ :=
  fun i j => if (j : ℕ) = map i then 1 else 0

/-- The runtime invariant of a Mirror instance: the quadrant map only
    holds quadrant numbers, and — whenever `transitionDuration` is a
    positive tick count — outside a transition the mix is in index
    format, while inside a transition (only possible with
    `smoothTransition` on) every mix row sums to 1 and every delta row
    sums to 0. -/
def MirrorInv (s : MirrorState) : Prop :=
  (∀ i, s.map i < 4) ∧
  (0 < s.opts.transitionDuration →
    (s.animFrameCount = 0 → s.mix = indexMix s.map) ∧
    (s.animFrameCount ≠ 0 →
      s.opts.smoothTransition = true ∧
      (∀ i, ∑ j, s.mix i j = 1) ∧
      (∀ i, ∑ j, s.mixDelta i j = 0)))

/- ### Concrete inputs used by witnesses and counterexamples -/

/-- Mirror options with smooth transitions over 2 ticks and the
    topToBottom direction enabled. -/
def cexMirrorOpts : MirrorOpts :=
  { onBeatRandom := false, topToBottom := true, bottomToTop := false,
    leftToRight := false, rightToLeft := false, smoothTransition := true,
    transitionDuration := 2 }

/-- A settled Mirror state (no transition running, identity quadrant
    map, mix in index format) upon which the direction options of
    `cexMirrorOpts` have just been assigned, so that the `updateMap`
    option handler is about to fire. -/
def cexMirrorStart : MirrorState :=
  { opts := cexMirrorOpts, animFrameCount := 0, map := fun i => (i : ℕ),
    mix := indexMix (fun i => (i : ℕ)), mixDelta := fun _ _ => 0 }

/-- A preset with one SuperScope component, one resource uri and a
    meta entry. -/
def presetWit : PresetInput :=
  { clearFrame := true,
    components := NodeForest.cons
      (NodeCfg.mk ("SuperScope") [(("source"), ("WAVEFORM"))] NodeForest.nil)
      NodeForest.nil,
    resources := some [(("avatar"), ("http://localhost/avatar.png"))],
    meta := some [(("name"), ("demo"))] }

/-- The state produced by `loadPreset presetWit` on a fresh `Main`. -/
def loadedWit : MainState :=
  { Main.initMain with
    rsrcUris := [(("avatar"), ("http://localhost/avatar.png"))],
    presetResourceKeys := [("avatar")],
    meta := some [(("name"), ("demo"))],
    registerBank := [],
    root := { clearFrame := true,
              kids := InstForest.cons
                (NodeInst.mk ("SuperScope") [(("source"), ("WAVEFORM"))] InstForest.nil)
                InstForest.nil } }

/-- A fresh `Main` that has been started while resources are ready:
    running with a pending animation frame request. -/
def sRun : MainState :=
  { Main.initMain with isStarted := true, animPending := true }

/-- A fresh `Main` whose register bank holds one value written by a
    component of the running preset. -/
def sReg : MainState :=
  { Main.initMain with registerBank := [(("x"), (5 : Int))] }

/- ## Theorems -/

namespace Mirror

theorem quadrantMapOfDirs_lt (d : MirrorDirs) (i : Fin 4) :
    quadrantMapOfDirs d i < 4 := by
  obtain ⟨a, b, c, e⟩ := d
  revert i
  cases a <;> cases b <;> cases c <;> cases e <;> decide

theorem onehotRow_index (m : ℕ) (hm : m < 4) :
    onehotRow (fun j => if j = 0 then (m : ℚ) else 0) =
      fun j : Fin 4 => if (j : ℕ) = m then (1 : ℚ) else 0 := by
  interval_cases m <;>
  · funext j
    fin_cases j <;> simp [onehotRow, quadIdx, Function.update]

theorem sum_onehot_eq_one (m : ℕ) (hm : m < 4) :
    ∑ j : Fin 4, (if (j : ℕ) = m then (1 : ℚ) else 0) = 1 := by
  interval_cases m <;> · rw [Fin.sum_univ_four]; norm_num +decide

theorem setMix_false_smooth {t : MirrorState}
    (hsm : t.opts.smoothTransition = true) :
    setMix false t =
      { t with
        mix := if t.animFrameCount = 0 then (fun i => onehotRow (t.mix i)) else t.mix,
        mixDelta := fun i j =>
          ((if (j : ℕ) = t.map i then (1 : ℚ) else 0) -
            (if t.animFrameCount = 0 then (fun i => onehotRow (t.mix i)) else t.mix) i j) /
            (t.opts.transitionDuration : ℚ),
        animFrameCount := t.opts.transitionDuration } := by
  rw [setMix, hsm]
  rfl

theorem setMix_false_not_smooth {t : MirrorState}
    (hsm : t.opts.smoothTransition = false) :
    setMix false t = { t with mix := indexMix t.map } := by
  rw [setMix, hsm]
  rfl

theorem setMix_true_eq (t : MirrorState) :
    setMix true t = { t with mix := indexMix t.map } := by
  rw [setMix]
  simp only [Bool.not_true, Bool.and_false, Bool.false_eq_true, if_false]
  rfl

theorem setQuadrantMap_eq (r : Option (Fin 16)) (s : MirrorState) :
    setQuadrantMap r s =
      setMix false { s with
        map := quadrantMapOfDirs (match r with
          | none => s.opts.dirs
          | some rv => gatedDirs s.opts rv) } := rfl

theorem setMix_false_inv (t : MirrorState) (oldMap : Fin 4 → ℕ)
    (hold : ∀ i, oldMap i < 4)
    (hmap : ∀ i, t.map i < 4)
    (hidx : 0 < t.opts.transitionDuration → t.animFrameCount = 0 →
      t.mix = indexMix oldMap)
    (htr : 0 < t.opts.transitionDuration → t.animFrameCount ≠ 0 →
      t.opts.smoothTransition = true ∧ (∀ i, ∑ j, t.mix i j = 1) ∧
        (∀ i, ∑ j, t.mixDelta i j = 0)) :
    MirrorInv (setMix false t) := by
  by_cases hsm : t.opts.smoothTransition = true
  · rw [setMix_false_smooth hsm]
    refine ⟨hmap, fun hdur => ⟨fun hc0 => absurd hc0 (Nat.pos_iff_ne_zero.mp hdur),
      fun _ => ?_⟩⟩
    have hsum1 : ∀ i, ∑ j, (if t.animFrameCount = 0
        then (fun i => onehotRow (t.mix i)) else t.mix) i j = 1 := by
      intro i
      by_cases hc : t.animFrameCount = 0
      · rw [if_pos hc, hidx hdur hc]
        have hrow : indexMix oldMap i =
            fun j : Fin 4 => if j = 0 then ((oldMap i : ℕ) : ℚ) else 0 := rfl
        rw [hrow, onehotRow_index (oldMap i) (hold i)]
        exact sum_onehot_eq_one (oldMap i) (hold i)
      · rw [if_neg hc]
        exact (htr hdur hc).2.1 i
    refine ⟨hsm, hsum1, fun i => ?_⟩
    rw [← Finset.sum_div, Finset.sum_sub_distrib,
      sum_onehot_eq_one (t.map i) (hmap i), hsum1 i]
    simp
  · have hsmf : t.opts.smoothTransition = false := by
      simpa using hsm
    rw [setMix_false_not_smooth hsmf]
    refine ⟨hmap, fun hdur => ⟨fun _ => rfl, fun hc => ?_⟩⟩
    have hx := (htr hdur hc).1
    rw [hsmf] at hx
    exact (Bool.false_ne_true hx).elim

theorem setQuadrantMap_inv {s : MirrorState} (h : MirrorInv s)
    (r : Option (Fin 16)) : MirrorInv (setQuadrantMap r s) := by
  obtain ⟨hmap, hfmt⟩ := h
  rw [setQuadrantMap_eq]
  refine setMix_false_inv _ s.map hmap (fun i => quadrantMapOfDirs_lt _ i) ?_ ?_
  · intro hdur hc
    exact (hfmt hdur).1 hc
  · intro hdur hc
    exact (hfmt hdur).2 hc

theorem draw_branch_inv (t : MirrorState) (ht : MirrorInv t) :
    MirrorInv (if inTransition t then
      (if t.animFrameCount - 1 = 0 then setMix true { t with animFrameCount := 0 }
       else { t with animFrameCount := t.animFrameCount - 1,
                     mix := fun i j => t.mix i j + t.mixDelta i j })
      else t) := by
  obtain ⟨hmap, hfmt⟩ := ht
  by_cases htr : inTransition t = true
  · rw [if_pos htr]
    have htr' := htr
    simp only [inTransition, Bool.and_eq_true, bne_iff_ne] at htr'
    obtain ⟨hsm, hcnz⟩ := htr'
    by_cases hc1 : t.animFrameCount - 1 = 0
    · rw [if_pos hc1, setMix_true_eq]
      exact ⟨hmap, fun _ => ⟨fun _ => rfl, fun hc => absurd rfl hc⟩⟩
    · rw [if_neg hc1]
      refine ⟨hmap, fun hdur => ⟨fun hc0 => absurd hc0 hc1, fun _ => ?_⟩⟩
      obtain ⟨_, hsum, hdsum⟩ := (hfmt hdur).2 hcnz
      refine ⟨hsm, fun i => ?_, hdsum⟩
      rw [Finset.sum_add_distrib, hsum i, hdsum i, add_zero]
  · rw [if_neg htr]
    exact ⟨hmap, hfmt⟩

theorem draw_inv {s : MirrorState} (h : MirrorInv s) (b : Bool) (r : Fin 16) :
    MirrorInv (draw b r s) := by
  simp only [draw]
  by_cases hb : (s.opts.onBeatRandom && b) = true
  · rw [if_pos hb]
    exact draw_branch_inv _ (setQuadrantMap_inv h (some r))
  · rw [if_neg hb]
    exact draw_branch_inv _ h

theorem initBase_inv (o : MirrorOpts) : MirrorInv (initBase o) :=
  ⟨fun i => i.isLt, fun _ => ⟨fun _ => rfl, fun hc => absurd rfl hc⟩⟩

theorem reachable_mirrorInv {o : MirrorOpts} {s : MirrorState}
    (h : Reachable o s) : MirrorInv s := by
  induction h with
  | init => exact setQuadrantMap_inv (initBase_inv o) none
  | step e h ih =>
    rename_i s
    cases e with
    | updateDirs d =>
      exact setQuadrantMap_inv (s := { s with opts := s.opts.withDirs d }) ih none
    | drawFrame b r => exact draw_inv ih b r

theorem updateMap_eq (s : MirrorState) :
    updateMap s = setMix false { s with map := quadrantMapOfDirs s.opts.dirs } := rfl

theorem draw_noBeat_eq (s : MirrorState) :
    draw false 0 s =
      if inTransition s then
        (if s.animFrameCount - 1 = 0 then setMix true { s with animFrameCount := 0 }
         else { s with animFrameCount := s.animFrameCount - 1,
                       mix := fun i j => s.mix i j + s.mixDelta i j })
      else s := by
  simp only [draw, Bool.and_false, Bool.false_eq_true, if_false]

theorem draw_iterate_mid {t : MirrorState} {d : ℕ}
    (hsm : t.opts.smoothTransition = true) (hcount : t.animFrameCount = d) :
    ∀ k, k < d →
      ((draw false 0)^[k] t).opts = t.opts ∧
      ((draw false 0)^[k] t).map = t.map ∧
      ((draw false 0)^[k] t).mixDelta = t.mixDelta ∧
      ((draw false 0)^[k] t).animFrameCount = d - k ∧
      (∀ i j, ((draw false 0)^[k] t).mix i j =
        t.mix i j + (k : ℚ) * t.mixDelta i j) := by
  intro k
  induction k with
  | zero =>
    intro _
    refine ⟨rfl, rfl, rfl, by simpa using hcount, fun i j => by simp⟩
  | succ k ih =>
    intro hk
    have hk' : k < d := Nat.lt_of_succ_lt hk
    obtain ⟨ho, hm, hdel, hcnt, hmix⟩ := ih hk'
    rw [Function.iterate_succ_apply']
    set u := (draw false 0)^[k] t with hu
    have hne : u.animFrameCount ≠ 0 := by
      rw [hcnt]
      omega
    have htr : inTransition u = true := by
      simp [inTransition, ho, hsm, bne_iff_ne, hne]
    have hc1 : ¬ (u.animFrameCount - 1 = 0) := by
      rw [hcnt]
      omega
    rw [draw_noBeat_eq, if_pos htr, if_neg hc1]
    refine ⟨ho, hm, hdel, ?_, fun i j => ?_⟩
    · show u.animFrameCount - 1 = d - (k + 1)
      rw [hcnt]
      omega
    · show u.mix i j + u.mixDelta i j = _
      rw [hmix i j, hdel]
      push_cast
      ring

theorem draw_iterate_end {t : MirrorState} {d : ℕ} (hd : 0 < d)
    (hsm : t.opts.smoothTransition = true) (hcount : t.animFrameCount = d) :
    ((draw false 0)^[d] t).opts = t.opts ∧
    ((draw false 0)^[d] t).map = t.map ∧
    ((draw false 0)^[d] t).animFrameCount = 0 ∧
    ((draw false 0)^[d] t).mix = indexMix t.map := by
  obtain ⟨ho, hm, hdel, hcnt, hmix⟩ :=
    draw_iterate_mid hsm hcount (d - 1) (by omega)
  have hd1 : d = (d - 1) + 1 := by omega
  rw [hd1, Function.iterate_succ_apply']
  set u := (draw false 0)^[d - 1] t with hu
  have hne : u.animFrameCount ≠ 0 := by
    rw [hcnt]
    omega
  have htr : inTransition u = true := by
    simp [inTransition, ho, hsm, bne_iff_ne, hne]
  have hc1 : u.animFrameCount - 1 = 0 := by
    rw [hcnt]
    omega
  rw [draw_noBeat_eq, if_pos htr, if_pos hc1, setMix_true_eq]
  exact ⟨ho, hm, rfl, by rw [hm]⟩

theorem updateMap_start_fields {s : MirrorState}
    (hsm : s.opts.smoothTransition = true) (hc : s.animFrameCount = 0)
    (hmap : ∀ i, s.map i < 4) (hmix : s.mix = indexMix s.map) :
    (updateMap s).opts = s.opts ∧
    (updateMap s).map = quadrantMapOfDirs s.opts.dirs ∧
    (updateMap s).animFrameCount = s.opts.transitionDuration ∧
    (updateMap s).mix = onehotMix s.map ∧
    (updateMap s).mixDelta = fun i j =>
      (onehotMix (quadrantMapOfDirs s.opts.dirs) i j - onehotMix s.map i j) /
        (s.opts.transitionDuration : ℚ) := by
  rw [updateMap_eq,
    setMix_false_smooth (t := { s with map := quadrantMapOfDirs s.opts.dirs }) hsm]
  dsimp only
  have hmix2 : (if s.animFrameCount = 0
      then (fun i => onehotRow (s.mix i)) else s.mix) = onehotMix s.map := by
    rw [if_pos hc]
    funext i
    rw [hmix]
    have hrow : indexMix s.map i =
        fun j : Fin 4 => if j = 0 then ((s.map i : ℕ) : ℚ) else 0 := rfl
    rw [hrow, onehotRow_index (s.map i) (hmap i)]
    rfl
  refine ⟨rfl, rfl, rfl, hmix2, ?_⟩
  funext i j
  rw [hmix2]
  rfl

end Mirror

/-- C4: for every setting of the four boolean direction options, the
    quadrant map of `Mirror._setQuadrantMap` equals the left fold that
    starts from the identity map `[0,1,2,3]` and applies, in the fixed
    order topToBottom, bottomToTop, leftToRight, rightToLeft, the
    overwrite of one quadrant-index pair by another for each enabled
    direction; moreover a later direction can override an earlier one
    (with topToBottom and rightToLeft enabled, rightToLeft overwrites
    quadrant 2, which topToBottom had set to 0, with 1) and the order
    is not commutative (reversing the order for
    topToBottom+bottomToTop changes the result). -/
theorem mirror_quadrant_map_fixed_order :
    (∀ a b c e : Bool,
       quadrantMapOfDirs ⟨a, b, c, e⟩ =
         (enabledDirs ⟨a, b, c, e⟩).foldl
           (fun m dir => applyMirrorDir dir m) ![0, 1, 2, 3]) ∧
    quadrantMapOfDirs ⟨true, false, false, true⟩ 2 = 1 ∧
    applyMirrorDir .ttb ![0, 1, 2, 3] 2 = 0 ∧
    (enabledDirs ⟨true, true, false, false⟩).foldl
        (fun m dir => applyMirrorDir dir m) ![0, 1, 2, 3] ≠
      ((enabledDirs ⟨true, true, false, false⟩).reverse).foldl
        (fun m dir => applyMirrorDir dir m) ![0, 1, 2, 3] :=
  ⟨by decide, by decide, by decide, by decide⟩

/-- C6: in every state reachable by a Mirror instance whose
    `transitionDuration` is positive, whenever a smooth transition is in
    progress the four mix weights of each quadrant sum to exactly 1
    (in the rational model; the source computes in floating point, where
    this holds up to rounding). -/
theorem mirror_mix_rows_sum_one {o : MirrorOpts} {s : MirrorState}
    (hr : Mirror.Reachable o s) (hdur : 0 < s.opts.transitionDuration)
    (ht : Mirror.inTransition s = true) (i : Fin 4) :
    ∑ j, s.mix i j = 1 := by
  have h := Mirror.reachable_mirrorInv hr
  have ht' := ht
  simp only [Mirror.inTransition, Bool.and_eq_true, bne_iff_ne] at ht'
  exact ((h.2 hdur).2 ht'.2).2.1 i

/-- Witness for C6: the initial state of a Mirror with smooth
    transitions over 2 ticks and topToBottom enabled is inside a
    transition, and its quadrant-0 weights sum to 1. -/
theorem mirror_mix_rows_sum_one_witness :
    ∑ j, (Mirror.initState cexMirrorOpts).mix 0 j = 1 :=
  mirror_mix_rows_sum_one Mirror.Reachable.init (by decide) (by decide) 0

/-- C9: in every reachable state of a Mirror instance — after `init`
    and after every `_setQuadrantMap`, whether triggered by an option
    update or by the gated 4-bit random beat path — every entry of the
    quadrant map is a natural number below 4, and (for a positive
    `transitionDuration`) outside a transition slot 0 of each mix row
    holds exactly that quadrant number, so the one-hot conversion
    `mix[i][quad]` of `_setMix` always indexes within the 4-element
    weight vector. -/
theorem mirror_quadrant_map_in_range {o : MirrorOpts} {s : MirrorState}
    (hr : Mirror.Reachable o s) :
    (∀ i, s.map i < 4) ∧
    (0 < s.opts.transitionDuration → s.animFrameCount = 0 →
      ∀ i, s.mix i 0 = (s.map i : ℚ)) := by
  have h := Mirror.reachable_mirrorInv hr
  refine ⟨h.1, fun hdur hc i => ?_⟩
  rw [(h.2 hdur).1 hc]
  rfl

/-- Witness for C9: on the freshly initialized Mirror with the default
    options, quadrant 2 is mapped to quadrant 0 (a number below 4), and
    slot 0 of mix row 2 holds exactly that number. -/
theorem mirror_quadrant_map_in_range_witness :
    (Mirror.initState mirrorDefaultOptions).map 2 < 4 ∧
    (Mirror.initState mirrorDefaultOptions).mix 2 0 =
      ((Mirror.initState mirrorDefaultOptions).map 2 : ℚ) :=
  ⟨(mirror_quadrant_map_in_range Mirror.Reachable.init).1 2,
   (mirror_quadrant_map_in_range Mirror.Reachable.init).2 (by decide) (by decide) 2⟩


/-- C5 counterexample: with smooth transitions over `transitionDuration = 2`
    ticks, start a direction change (topToBottom) on a settled Mirror via
    the `updateMap` handler and run exactly 2 draw ticks.  Afterwards the
    stored weights do NOT equal the target one-hot vector: the final tick
    snapped the mix to index format (`mix[i] = [map[i],0,0,0]`), so row 2
    is `[0,0,0,0]` while the one-hot of its target quadrant 0 is
    `[1,0,0,0]`. -/
theorem mirror_transition_end_not_onehot_cex :
    ((Mirror.draw false 0)^[2] (Mirror.updateMap cexMirrorStart)).mix 2 0 ≠
      onehotMix (((Mirror.draw false 0)^[2] (Mirror.updateMap cexMirrorStart)).map) 2 0 := by
  decide

/-- C5 amended: when a direction change fires `updateMap` with
    `smoothTransition` enabled, a positive duration `d` and no transition
    in progress (mix settled in index format), the mix is converted to the
    one-hot weights of the current map, each delta is set to
    (target one-hot − current weight) / d, each of the first `d − 1`
    subsequent draw ticks adds the delta to every weight (after `k < d`
    ticks the weights are start + k·delta), and on tick `d` the component
    snaps directly back to index mode (`mix[i] = [map[i],0,0,0]`,
    `animFrameCount = 0`, transition over) rather than storing the
    one-hot vector. -/
theorem mirror_smooth_transition_amended (s : MirrorState) (d : ℕ)
    (hsm : s.opts.smoothTransition = true)
    (hdur : s.opts.transitionDuration = d) (hd : 0 < d)
    (hc : s.animFrameCount = 0)
    (hmap : ∀ i, s.map i < 4)
    (hmix : s.mix = indexMix s.map) :
    (Mirror.updateMap s).mix = onehotMix s.map ∧
    (Mirror.updateMap s).mixDelta = (fun i j =>
      (onehotMix ((Mirror.updateMap s).map) i j - onehotMix s.map i j) / (d : ℚ)) ∧
    (∀ k, k < d → ∀ i j,
      ((Mirror.draw false 0)^[k] (Mirror.updateMap s)).mix i j =
        onehotMix s.map i j + (k : ℚ) * (Mirror.updateMap s).mixDelta i j) ∧
    ((Mirror.draw false 0)^[d] (Mirror.updateMap s)).animFrameCount = 0 ∧
    ((Mirror.draw false 0)^[d] (Mirror.updateMap s)).mix =
      indexMix ((Mirror.updateMap s).map) ∧
    Mirror.inTransition ((Mirror.draw false 0)^[d] (Mirror.updateMap s)) = false := by
  obtain ⟨ho, hm, hcnt, hmx, hdel⟩ := Mirror.updateMap_start_fields hsm hc hmap hmix
  set t := Mirror.updateMap s with htdef
  have hsmt : t.opts.smoothTransition = true := by
    rw [ho]
    exact hsm
  have hcountt : t.animFrameCount = d := by
    rw [hcnt, hdur]
  have hend := Mirror.draw_iterate_end hd hsmt hcountt
  refine ⟨hmx, ?_, ?_, hend.2.2.1, ?_, ?_⟩
  · rw [hdel]
    funext i j
    rw [← hm, hdur]
  · intro k hk i j
    obtain ⟨_, _, _, _, hmixk⟩ := Mirror.draw_iterate_mid hsmt hcountt k hk
    rw [hmixk i j, hmx]
  · rw [hend.2.2.2]
  · have h0 := hend.2.2.1
    simp [Mirror.inTransition, h0]

/-- Witness for the amended C5: for the concrete 2-tick transition of
    `cexMirrorStart`, after exactly 2 draw ticks the frame counter is 0
    and the mix is back in index format for the new quadrant map. -/
theorem mirror_smooth_transition_amended_witness :
    ((Mirror.draw false 0)^[2] (Mirror.updateMap cexMirrorStart)).animFrameCount = 0 ∧
    ((Mirror.draw false 0)^[2] (Mirror.updateMap cexMirrorStart)).mix =
      indexMix ((Mirror.updateMap cexMirrorStart).map) :=
  ⟨(mirror_smooth_transition_amended cexMirrorStart 2 rfl rfl (by decide) rfl
      (by decide) rfl).2.2.2.1,
   (mirror_smooth_transition_amended cexMirrorStart 2 rfl rfl (by decide) rfl
      (by decide) rfl).2.2.2.2.1⟩

/- ### Round trip of the modelled component tree -/

mutual
theorem build_toCfg_node (reg : List String) (c : NodeCfg) (n : NodeInst)
    (h : buildNode reg c = some n) : toCfgNode n = c := by
  cases c with
  | mk t o cs =>
    by_cases ht : t ∈ reg
    · rw [buildNode, if_pos ht] at h
      cases hk : buildForest reg cs with
      | none =>
        rw [hk] at h
        exact absurd h (by simp)
      | some ks =>
        rw [hk] at h
        cases h
        rw [toCfgNode, build_toCfg_forest reg cs ks hk]
    · rw [buildNode, if_neg ht] at h
      exact absurd h (by simp)
theorem build_toCfg_forest (reg : List String) (cs : NodeForest) (ks : InstForest)
    (h : buildForest reg cs = some ks) : toCfgForest ks = cs := by
  cases cs with
  | nil =>
    rw [buildForest] at h
    cases h
    rfl
  | cons c rest =>
    rw [buildForest] at h
    cases hn : buildNode reg c with
    | none =>
      rw [hn] at h
      exact absurd h (by simp)
    | some n =>
      cases hr : buildForest reg rest with
      | none =>
        rw [hn, hr] at h
        exact absurd h (by simp)
      | some ns =>
        rw [hn, hr] at h
        cases h
        rw [toCfgForest, build_toCfg_node reg c n hn,
          build_toCfg_forest reg rest ns hr]
end

theorem buildForest_of_toCfg {reg : List String} {cs : NodeForest}
    {ks : InstForest} (h : buildForest reg cs = some ks) :
    buildForest reg (toCfgForest ks) = some ks := by
  rw [build_toCfg_forest reg cs ks h]
  exact h

/- ### Registering uris -/

theorem insertUri_not_mem (m : List (String × String)) (kv : String × String)
    (h : kv.1 ∉ m.map Prod.fst) : insertUri m kv = m ++ [kv] := by
  rw [insertUri, if_neg h]

theorem registerUris_disjoint (l : List (String × String)) :
    ∀ m : List (String × String), (l.map Prod.fst).Nodup →
      (∀ kv ∈ l, kv.1 ∉ m.map Prod.fst) → registerUris l m = m ++ l := by
  induction l with
  | nil =>
    intro m _ _
    simp [registerUris]
  | cons kv rest ih =>
    intro m hnd hdisj
    have hmem : kv.1 ∉ m.map Prod.fst := hdisj kv (List.mem_cons_self kv rest)
    have step1 : registerUris (kv :: rest) m = registerUris rest (m ++ [kv]) := by
      rw [registerUris, List.foldl_cons, insertUri_not_mem m kv hmem]
      rfl
    rw [step1, ih (m ++ [kv]) hnd.of_cons]
    · simp
    · intro kv' hkv'
      simp only [List.map_append, List.mem_append]
      rintro (hin | hin)
      · exact hdisj kv' (List.mem_cons_of_mem kv hkv') hin
      · simp only [List.map_cons, List.map_nil, List.mem_singleton] at hin
        have hne : kv'.1 ≠ kv.1 := by
          have := (List.nodup_cons.mp hnd).1
          intro hEq
          exact this (hEq ▸ List.mem_map_of_mem Prod.fst hkv')
        exact hne hin

/-- C1: for every valid preset configuration (all component types
    registered, no duplicate resource keys) loaded into a `Main` whose
    registered uris all belong to the previous preset, `loadPreset`
    followed by `toJSON` reproduces the configuration: the picked root
    properties (`clearFrame`, `components`), the resource uris and the
    metadata.  The tree construction and per-node `toJSON` are modelled
    from the spec (section 4.1); the `Main` plumbing is embedded from
    the source. -/
theorem loadPreset_toJSON_roundtrip (p : PresetInput) (s s' : MainState)
    (h : Main.loadPreset p s = some s')
    (hres : removeKeys s.presetResourceKeys s.rsrcUris = [])
    (hnd : ((p.resources.getD []).map Prod.fst).Nodup) :
    Main.toJSON s' =
      { clearFrame := p.clearFrame, components := p.components,
        uris := p.resources.getD [], meta := p.meta } := by
  rw [Main.loadPreset] at h
  cases hb : buildForest componentRegistryNames p.components with
  | none =>
    rw [hb] at h
    exact absurd h (by simp)
  | some ks =>
    rw [hb] at h
    cases h
    rw [Main.toJSON]
    simp only [PresetOut.mk.injEq]
    refine ⟨trivial, ?_, ?_, trivial⟩
    · exact build_toCfg_forest componentRegistryNames p.components ks hb
    · rw [hres, registerUris_disjoint (p.resources.getD []) [] hnd (by simp)]
      simp

/-- Witness for C1: loading the concrete one-SuperScope preset into a
    fresh `Main` and serializing reproduces it. -/
theorem loadPreset_toJSON_roundtrip_witness :
    Main.toJSON loadedWit =
      { clearFrame := presetWit.clearFrame,
        components := presetWit.components,
        uris := presetWit.resources.getD [],
        meta := presetWit.meta } :=
  loadPreset_toJSON_roundtrip presetWit Main.initMain loadedWit rfl rfl (by decide)

/- ### The Main runtime invariant -/

namespace Main

theorem start_inv {s : MainState} (h : Inv s) : Inv (start s) := by
  obtain ⟨hp, hw⟩ := h
  rw [start]
  by_cases hs : s.isStarted = true
  · rw [if_pos hs]
    exact ⟨hp, hw⟩
  · rw [if_neg hs]
    dsimp only
    by_cases hr : s.rsrcReady = true
    · rw [if_pos hr]
      exact ⟨fun _ => ⟨rfl, hr⟩, hw⟩
    · rw [if_neg hr]
      exact ⟨fun hpend => absurd (hp hpend).2 hr, hw⟩

theorem stop_inv {s : MainState} (h : Inv s) : Inv (stop s) := by
  obtain ⟨hp, hw⟩ := h
  rw [stop]
  by_cases hs : s.isStarted = true
  · rw [if_neg (by simp [hs])]
    dsimp only
    by_cases hr : s.rsrcReady = true
    · rw [if_pos hr]
      exact ⟨fun hpend => absurd hpend (by simp), hw⟩
    · rw [if_neg hr]
      exact ⟨fun hpend => absurd (hp hpend).2 hr, hw⟩
  · have hs' : s.isStarted = false := by simpa using hs
    rw [if_pos (by simp [hs'])]
    exact ⟨hp, hw⟩

theorem resetCanvas_eq {s : MainState} (hw : buildForest componentRegistryNames
    (toCfgForest s.root.kids) = some s.root.kids) :
    resetCanvas s = { s with registerBank := [] } := by
  rw [resetCanvas, hw]

theorem resetCanvas_inv {s : MainState} (h : Inv s) : Inv (resetCanvas s) := by
  obtain ⟨hp, hw⟩ := h
  rw [resetCanvas_eq hw]
  exact ⟨hp, hw⟩

theorem loadPreset_inv {s s' : MainState} (p : PresetInput) (h : Inv s)
    (hl : loadPreset p s = some s') : Inv s' := by
  rw [loadPreset] at hl
  cases hb : buildForest componentRegistryNames p.components with
  | none =>
    rw [hb] at hl
    exact absurd hl (by simp)
  | some ks =>
    rw [hb] at hl
    cases hl
    exact ⟨h.1, buildForest_of_toCfg hb⟩

theorem step_inv {s : MainState} (h : Inv s) (e : Event) : Inv (step e s) := by
  cases e with
  | start => exact start_inv h
  | stop => exact stop_inv h
  | contextLost => exact stop_inv h
  | contextRestored => exact resetCanvas_inv h
  | rsrcWait =>
    obtain ⟨hp, hw⟩ := h
    simp only [step]
    by_cases hs : s.isStarted = true
    · rw [if_pos hs]
      exact ⟨fun hpend => absurd hpend (by simp), hw⟩
    · rw [if_neg hs]
      exact ⟨fun hpend => absurd (hp hpend).1 hs, hw⟩
  | rsrcReady =>
    obtain ⟨hp, hw⟩ := h
    simp only [step]
    by_cases hs : s.isStarted = true
    · rw [if_pos hs]
      exact ⟨fun _ => ⟨hs, rfl⟩, hw⟩
    · rw [if_neg hs]
      exact ⟨fun hpend => absurd (hp hpend).1 hs, hw⟩
  | tick =>
    obtain ⟨hp, hw⟩ := h
    simp only [step]
    by_cases hs : s.animPending = true
    · rw [if_pos hs]
      exact ⟨fun _ => hp hs, hw⟩
    · rw [if_neg hs]
      exact ⟨hp, hw⟩
  | load p =>
    simp only [step]
    cases hl : loadPreset p s with
    | none => exact h
    | some s2 => exact loadPreset_inv p h hl

theorem reachable_mainInv {s : MainState} (h : Reachable s) : Inv s := by
  induction h with
  | init => exact ⟨by simp [initMain], rfl⟩
  | step e h ih => exact step_inv ih e

end Main

namespace Main

theorem stop_stopped {s : MainState} (h : Inv s) :
    (stop s).isStarted = false ∧ (stop s).animPending = false ∧
    (stop s).root = s.root := by
  obtain ⟨hp, hw⟩ := h
  rw [stop]
  by_cases hs : s.isStarted = true
  · rw [if_neg (by simp [hs])]
    dsimp only
    by_cases hr : s.rsrcReady = true
    · rw [if_pos hr]
      exact ⟨rfl, rfl, rfl⟩
    · rw [if_neg hr]
      refine ⟨rfl, ?_, rfl⟩
      by_cases hpend : s.animPending = true
      · exact absurd (hp hpend).2 hr
      · simpa using hpend
  · have hs' : s.isStarted = false := by simpa using hs
    rw [if_pos (by simp [hs'])]
    refine ⟨hs', ?_, rfl⟩
    by_cases hpend : s.animPending = true
    · exact absurd (hp hpend).1 hs
    · simpa using hpend

theorem start_registerBank (s : MainState) :
    (start s).registerBank = s.registerBank := by
  rw [start]
  split
  · rfl
  · dsimp only
    split <;> rfl

theorem stop_registerBank (s : MainState) :
    (stop s).registerBank = s.registerBank := by
  rw [stop]
  split
  · rfl
  · dsimp only
    split <;> rfl

theorem resetCanvas_registerBank (s : MainState) :
    (resetCanvas s).registerBank = [] := by
  rw [resetCanvas]
  cases hb : buildForest componentRegistryNames (toCfgForest s.root.kids) with
  | none => rfl
  | some ks => rfl

end Main

/-- C2 counterexample: a running `Main` (started, resources ready, an
    animation frame request pending) that loses and regains its WebGL
    context ends with no pending animation frame request: the
    context-restored handler only calls `resetCanvas()`, which rebuilds
    the tree but never restarts the animation that the context-lost
    handler stopped. -/
theorem context_restore_no_resume_cex :
    sRun.isStarted = true ∧ sRun.animPending = true ∧
    (Main.step .contextRestored (Main.step .contextLost sRun)).animPending = false ∧
    (Main.step .contextRestored (Main.step .contextLost sRun)).isStarted = false :=
  ⟨rfl, rfl, by decide, by decide⟩

/-- C2 amended: after a context-loss event followed by a
    context-restored event, the component tree is rebuilt identical to
    the last known configuration (the root is unchanged), but the
    animation is NOT resumed: the instance is stopped (`isStarted =
    false`) with no pending frame request, whatever its state before the
    loss, and an explicit `start()` is needed to resume. -/
theorem context_loss_restore_rebuilds_stopped {s : MainState}
    (hr : Main.Reachable s) :
    (Main.step .contextRestored (Main.step .contextLost s)).root = s.root ∧
    (Main.step .contextRestored (Main.step .contextLost s)).isStarted = false ∧
    (Main.step .contextRestored (Main.step .contextLost s)).animPending = false := by
  have hinv := Main.reachable_mainInv hr
  have h1 := Main.stop_stopped hinv
  have hinv1 : Main.Inv (Main.stop s) := Main.stop_inv hinv
  rw [show Main.step .contextRestored (Main.step .contextLost s) =
    Main.resetCanvas (Main.stop s) from rfl]
  rw [Main.resetCanvas_eq hinv1.2]
  exact ⟨h1.2.2, h1.1, h1.2.1⟩

/-- Witness for the amended C2: on a freshly constructed `Main`, a
    context loss/restore pair leaves the root unchanged and the
    animation stopped. -/
theorem context_loss_restore_rebuilds_stopped_witness :
    (Main.step .contextRestored (Main.step .contextLost Main.initMain)).root =
      Main.initMain.root ∧
    (Main.step .contextRestored (Main.step .contextLost Main.initMain)).isStarted =
      false ∧
    (Main.step .contextRestored (Main.step .contextLost Main.initMain)).animPending =
      false :=
  context_loss_restore_rebuilds_stopped Main.Reachable.init

/-- C3: while the animation is started, a resource-manager `wait`
    signal cancels the pending animation frame request (and any number
    of subsequent host frame callbacks leave the state unchanged — no
    further ticks run), and a subsequent `ready` signal while still
    started makes a frame request pending again. -/
theorem rsrc_gate_halt_and_resume {s : MainState} (h : s.isStarted = true) :
    (Main.step .rsrcWait s).animPending = false ∧
    (Main.step .rsrcWait s).isStarted = true ∧
    (∀ k, (Main.step .tick)^[k] (Main.step .rsrcWait s) = Main.step .rsrcWait s) ∧
    (Main.step .rsrcReady (Main.step .rsrcWait s)).animPending = true := by
  have hw : Main.step .rsrcWait s =
      { s with rsrcReady := false, animPending := false } := by
    simp only [Main.step]
    rw [if_pos h]
  have htick : Main.step .tick ({ s with rsrcReady := false, animPending := false }
      : MainState) = { s with rsrcReady := false, animPending := false } := by
    simp only [Main.step]
    rw [if_neg (by simp)]
  refine ⟨by rw [hw], by rw [hw]; exact h, ?_, ?_⟩
  · intro k
    induction k with
    | zero => rfl
    | succ k ih =>
      rw [Function.iterate_succ_apply', ih, hw, htick]
  · rw [hw]
    simp only [Main.step]
    rw [if_pos (show ({ s with rsrcReady := false, animPending := false }
      : MainState).isStarted = true from h)]

/-- Witness for C3: on a started `Main`, a `wait` signal clears the
    pending request and a following `ready` signal restores it. -/
theorem rsrc_gate_halt_and_resume_witness :
    (Main.step .rsrcWait sRun).animPending = false ∧
    (Main.step .rsrcReady (Main.step .rsrcWait sRun)).animPending = true :=
  ⟨(rsrc_gate_halt_and_resume (s := sRun) rfl).1,
   (rsrc_gate_halt_and_resume (s := sRun) rfl).2.2.2⟩

/-- C7 counterexample: `resetCanvas` — run here by the context-restored
    handler while the same preset stays loaded (the root is unchanged) —
    also resets the shared register bank to empty, so `loadPreset` is
    not the only operation during the lifetime of a loaded preset that
    resets it. -/
theorem resetCanvas_resets_registerBank_cex :
    sReg.registerBank ≠ [] ∧
    (Main.step .contextRestored sReg).root = sReg.root ∧
    (Main.step .contextRestored sReg).registerBank = [] :=
  ⟨by decide, by decide, by decide⟩

/-- C7 amended: the register bank is reset to empty exactly by the
    operations that run `_setupRoot` — every successful `loadPreset`
    (before the new tree is handed to the caller) and `resetCanvas`
    (the context-restored handler) — while `start`, `stop`, the
    context-lost handler, both resource-gate signals and animation
    frame ticks leave it untouched, so register values persist across
    frames of the same preset. -/
theorem registerBank_reset_only_by_setupRoot (p : PresetInput) (s s' : MainState)
    (h : Main.loadPreset p s = some s') :
    s'.registerBank = [] ∧
    (Main.step .contextRestored s).registerBank = [] ∧
    (Main.step .start s).registerBank = s.registerBank ∧
    (Main.step .stop s).registerBank = s.registerBank ∧
    (Main.step .contextLost s).registerBank = s.registerBank ∧
    (Main.step .rsrcWait s).registerBank = s.registerBank ∧
    (Main.step .rsrcReady s).registerBank = s.registerBank ∧
    (Main.step .tick s).registerBank = s.registerBank := by
  refine ⟨?_, Main.resetCanvas_registerBank s, Main.start_registerBank s,
    Main.stop_registerBank s, Main.stop_registerBank s, ?_, ?_, ?_⟩
  · rw [Main.loadPreset] at h
    cases hb : buildForest componentRegistryNames p.components with
    | none =>
      rw [hb] at h
      exact absurd h (by simp)
    | some ks =>
      rw [hb] at h
      cases h
      rfl
  · simp only [Main.step]
    split <;> rfl
  · simp only [Main.step]
    split <;> rfl
  · simp only [Main.step]
    split <;> rfl

/-- Witness for the amended C7: loading the concrete preset into a
    fresh `Main` leaves an empty register bank. -/
theorem registerBank_reset_only_by_setupRoot_witness :
    loadedWit.registerBank = [] :=
  (registerBank_reset_only_by_setupRoot presetWit Main.initMain loadedWit rfl).1

/-- C8 counterexample: when only one of the two custom animation-frame
    callbacks is supplied (a custom `requestAnimationFrame`, no custom
    `cancelAnimationFrame`), the two Main variants construct different
    instances: part_001 falls back to the window pair for both, while
    part_002 keeps the supplied callback. -/
theorem raf_selection_mismatch_cex :
    constructMainV1 (some 1) none ≠ constructMainV2 (some 1) none := by
  decide

/-- C8 amended: the two Main variants are behaviourally equivalent
    whenever both custom animation-frame callbacks are supplied or
    neither is (every other method body is textually identical, so both
    share one step function): the constructed instances are equal and
    every sequence of calls over the public interface produces the same
    states.  They differ exactly when one custom callback is supplied
    without the other. -/
theorem main_variants_equiv_amended (rafOpt cafOpt : Option Nat)
    (h : (rafOpt = none ∧ cafOpt = none) ∨ (rafOpt ≠ none ∧ cafOpt ≠ none)) :
    constructMainV1 rafOpt cafOpt = constructMainV2 rafOpt cafOpt ∧
    (∀ es : List Main.Event,
      Main.runEvents es (constructMainV1 rafOpt cafOpt).state =
        Main.runEvents es (constructMainV2 rafOpt cafOpt).state) := by
  rcases h with ⟨h1, h2⟩ | ⟨h1, h2⟩
  · subst h1
    subst h2
    exact ⟨rfl, fun _ => rfl⟩
  · cases rafOpt with
    | none => exact absurd rfl h1
    | some r =>
      cases cafOpt with
      | none => exact absurd rfl h2
      | some c => exact ⟨rfl, fun _ => rfl⟩

/-- Witness for the amended C8: with no custom callback supplied, both
    variants construct the same instance. -/
theorem main_variants_equiv_amended_witness :
    constructMainV1 none none = constructMainV2 none none :=
  (main_variants_equiv_amended none none (Or.inl ⟨rfl, rfl⟩)).1

/-- C10: on a freshly constructed `Main` of either variant, the
    `buffers` field is still `undefined` (its declaration is never
    initialized), so the very first `getBuffer` — documented to return
    `undefined` for unknown names — and the very first `cacheBuffer`
    both throw a TypeError instead of reading or storing a buffer. -/
theorem getBuffer_uninitialized_buffers_error :
    Main.initMain.buffers = none ∧
    Main.getBuffer ("scope") Main.initMain =
      Except.error ("TypeError: this.buffers is undefined") ∧
    Main.cacheBuffer ("scope") 7 Main.initMain =
      Except.error ("TypeError: this.buffers is undefined") :=
  ⟨rfl, rfl, rfl⟩

end Webvs
